import Mathlib

/-!
Verification development for the RoboData Atlas application (src/app.py).

The file shallowly embeds the record-normalization and graph-projection
pipeline of the application: the numeric-field parser `_parse_int`, the
slugifier `_slugify`, the row reconciliation and record construction of
`load_data`, the sidebar filter, the graph projection with its node
deduplication, and the click-to-detail lookup.

Modelling conventions:
* Python strings are Lean `String`s; `str.strip`/`str.lower` are modelled
  on ASCII (`pyStrip`, `pyLower`).  The data handled by the claims is ASCII.
* Python `float(text)` is modelled by `pyFloat?`, which follows CPython's
  accepted literal grammar (optional sign; `inf`/`infinity`/`nan`
  case-insensitively; decimal literals with optional fraction, exponent and
  underscores between digits).  Finite values are represented exactly as
  an integer mantissa with a power-of-ten scale; IEEE rounding and literal
  overflow to infinity are not modelled, which is sound for the concrete
  inputs used here.
* Fallible Python code is modelled with `Except`: `int(float(text))`
  raises `OverflowError` on an infinite value, and that exception is not
  caught by `_parse_int`'s `except ValueError`.
-/

/-- Whitespace characters stripped by Python's `str.strip()` (ASCII part). -/
def pySpace (c : Char) : Bool :=
  c == ' ' || c == '\t' || c == '\n' || c == '\r' || c == '\x0b' || c == '\x0c'

/-- Model of Python `str.strip()`: drop leading and trailing whitespace. -/
def pyStrip (s : String) : String :=
  String.mk (((s.data.dropWhile pySpace).reverse.dropWhile pySpace).reverse)

/-- Model of Python `str.lower()` (ASCII case folding). -/
def pyLower (s : String) : String :=
  String.mk (s.data.map Char.toLower)

/-- Model of `text.replace(",", "")` as used in `_parse_int`. -/
def removeCommas (s : String) : String :=
  String.mk (s.data.filter (fun c => !(c == ',')))

/-- Split a character list at the first character satisfying `p`, returning
the parts before and after it, or `none` if no such character occurs. -/
def splitOnce (p : Char → Bool) : List Char → Option (List Char × List Char)
  | [] => none
  | c :: rest =>
    if p c then some ([], rest)
    else match splitOnce p rest with
      | none => none
      | some (a, b) => some (c :: a, b)

/-- Checks that no two consecutive characters are both underscores. -/
def noDoubleUnd : List Char → Bool
  | c :: d :: rest => !(c == '_' && d == '_') && noDoubleUnd (d :: rest)
  | _ => true

/-- A valid digit sequence of a Python float literal: nonempty, made of
decimal digits and underscores, beginning and ending with a digit, with
every underscore sitting between two digits. -/
def digitGroup (l : List Char) : Bool :=
  !l.isEmpty &&
  l.all (fun c => c.isDigit || c == '_') &&
  (match l.head? with | some c => c.isDigit | none => false) &&
  (match l.getLast? with | some c => c.isDigit | none => false) &&
  noDoubleUnd l

/-- Numeric value of the digits of a digit sequence (underscores skipped). -/
def digitsToNat (l : List Char) : Nat :=
  (l.filter Char.isDigit).foldl (fun a c => a * 10 + (c.toNat - 48)) 0

/-- Number of digit characters in a digit sequence (underscores skipped). -/
def numDigits (l : List Char) : Nat :=
  (l.filter Char.isDigit).length

/-- Result of Python `float(text)`: a finite value (represented exactly as
`mant * 10 ^ scale`), a signed infinity, or a NaN. -/
inductive PyFloat where
  | finite (mant : Int) (scale : Int)
  | infinite (neg : Bool)
  | nan
deriving DecidableEq

/-- Consume an optional leading sign, returning whether it was `-`. -/
def parseSign : List Char → Bool × List Char
  | '+' :: rest => (false, rest)
  | '-' :: rest => (true, rest)
  | l => (false, l)

/-- Value of the mantissa (the part before any exponent): an optional
integer part and an optional fractional part around an optional dot, at
least one digit overall.  Returns the concatenated digit value together
with the number of fractional digits, so the mantissa's exact value is
`digits * 10 ^ (-fracLen)`. -/
def mantissaVal? (l : List Char) : Option (Nat × Nat) :=
  match splitOnce (fun c => c == '.') l with
  | none => if digitGroup l then some (digitsToNat l, 0) else none
  | some (ip, fp) =>
    if (ip.isEmpty || digitGroup ip) && (fp.isEmpty || digitGroup fp) &&
       !(ip.isEmpty && fp.isEmpty) then
      some (digitsToNat ip * 10 ^ numDigits fp + digitsToNat fp, numDigits fp)
    else none

/-- Value of an exponent part: an optional sign followed by a digit sequence. -/
def expVal? (l : List Char) : Option Int :=
  let (neg, r) := parseSign l
  if digitGroup r then
    some (if neg then -(digitsToNat r : Int) else (digitsToNat r : Int))
  else none

/-- Core of the Python float grammar, applied after whitespace stripping. -/
def pyFloatCore? (l : List Char) : Option PyFloat :=
  let (neg, r) := parseSign l
  let low := r.map Char.toLower
  if low == "inf".data || low == "infinity".data then some (PyFloat.infinite neg)
  else if low == "nan".data then some PyFloat.nan
  else
    match splitOnce (fun c => c == 'e' || c == 'E') r with
    | none =>
      (mantissaVal? r).map (fun p =>
        PyFloat.finite (if neg then -(p.1 : Int) else (p.1 : Int)) (-(p.2 : Int)))
    | some (m, e) =>
      match mantissaVal? m, expVal? e with
      | some p, some ex =>
        some (PyFloat.finite (if neg then -(p.1 : Int) else (p.1 : Int)) (ex - (p.2 : Int)))
      | _, _ => none

/-- Model of Python `float(text)`: `none` means `float` raises `ValueError`. -/
def pyFloat? (s : String) : Option PyFloat :=
  pyFloatCore? (((s.data.dropWhile pySpace).reverse.dropWhile pySpace).reverse)

/-- Python `int()` applied to the finite float `mant * 10 ^ scale`:
truncation toward zero. -/
def floatTrunc (mant : Int) (scale : Int) : Int :=
  match scale with
  | Int.ofNat k => mant * ((10 ^ k : Nat) : Int)
  | Int.negSucc k =>
    if 0 ≤ mant then ((mant.toNat / 10 ^ (k + 1) : Nat) : Int)
    else -((((-mant).toNat / 10 ^ (k + 1) : Nat) : Int))

/-- The uncaught exception of the pipeline: `int()` of an infinite float
raises `OverflowError`, which `except ValueError` does not catch. -/
inductive PyErr where
  | overflowError
deriving DecidableEq

deriving instance DecidableEq for Except

/-- Model of `_parse_int` (src/app.py lines 25-35).  `none` stands for a
missing field (`record.get` returned Python `None`).  A `ValueError` from
`float(text)` or from `int(nan)` is caught and yields 0; an `OverflowError`
from `int(inf)` is not caught and escapes. -/
def _parse_int (value : Option String) : Except PyErr Int :=
  match value with
  | none => Except.ok 0
  | some v =>
    let text := pyStrip v
    if text == "" then Except.ok 0
    else
      match pyFloat? (removeCommas text) with
      | none => Except.ok 0
      | some PyFloat.nan => Except.ok 0
      | some (PyFloat.infinite _) => Except.error PyErr.overflowError
      | some (PyFloat.finite mant scale) => Except.ok (floatTrunc mant scale)

/-- Model of `_slugify`'s character class `[a-z0-9]` (src/app.py line 16). -/
def slugKeep (c : Char) : Bool :=
  ('a' ≤ c && c ≤ 'z') || ('0' ≤ c && c ≤ '9')

/-- Collapse consecutive hyphens into one, mirroring the effect of
substituting each maximal run of non-`[a-z0-9]` characters by `"-"`. -/
def squashDash : List Char → List Char
  | [] => []
  | [c] => [c]
  | c :: d :: rest =>
    if c == '-' && d == '-' then squashDash (d :: rest)
    else c :: squashDash (d :: rest)

/-- Model of Python `str.strip("-")`. -/
def stripDash (l : List Char) : List Char :=
  ((l.dropWhile (fun c => c == '-')).reverse.dropWhile (fun c => c == '-')).reverse

/-- Model of `_slugify` (src/app.py lines 19-22): lowercase, replace every
run of non-`[a-z0-9]` characters by a single hyphen, strip hyphens at both
ends, and fall back to `"dataset"` when nothing remains. -/
def _slugify (value : String) : String :=
  let lowered := (pyStrip value).data.map Char.toLower
  let cleaned := stripDash (squashDash (lowered.map (fun c => if slugKeep c then c else '-')))
  if cleaned.isEmpty then "dataset" else String.mk cleaned

/-- Lookup in the field map built by `dict(zip(header, row))`: on duplicate
keys the later binding wins, as with repeated Python dict assignment, so the
last matching pair is returned. -/
def dget (m : List (String × String)) (k : String) : Option String :=
  (m.reverse.find? (fun p => p.fst == k)).map Prod.snd

/-- Model of `record.get(k, d)`. -/
def dgetD (m : List (String × String)) (k d : String) : String :=
  (dget m k).getD d

/-- Model of `record = dict(zip(header, row))` followed by
`if version: record["Version"] = version` (src/app.py lines 69-71).  The
assignment is modelled by appending the binding, since `dget` lets the
last binding win. -/
def mkRecordDict (header row : List String) (version : Option String) : List (String × String) :=
  let m := header.zip row
  match version with
  | some v => if v == "" then m else m ++ [("Version", v)]
  | none => m

/-- Hardware facet of a normalized record. -/
structure Hardware where
  robot : String
  end_effector : String
  morphology : String
deriving DecidableEq

/-- Modality facet of a normalized record. -/
structure Modality where
  sensors : List String
  viewpoints : List String
deriving DecidableEq

/-- Task/environment facet of a normalized record. -/
structure TaskEnv where
  environment : String
  domain : String
  language_labels : Bool
deriving DecidableEq

/-- Engineering facet of a normalized record. -/
structure Engineering where
  format : String
  frequency : String
deriving DecidableEq

/-- Pass-through statistics bag of a normalized record. -/
structure StatsBag where
  episodes : String
  file_size_gb : String
  language_annotations : String
  data_collect_method : String
  has_suboptimal : String
  has_camera_calibration : String
  has_proprioception : String
deriving DecidableEq

/-- One normalized dataset record (the dictionary appended at
src/app.py lines 116-154). -/
structure DatasetRecord where
  id : String
  name : String
  description : String
  url : Option String
  hardware : Hardware
  modality : Modality
  task_env : TaskEnv
  engineering : Engineering
  stats : StatsBag
  registered_name : String
  citation : String
  latex_reference : String
  version : Option String
deriving DecidableEq

/-- Order-preserving deduplication keeping first occurrences, the effect of
`list(dict.fromkeys(xs))`. -/
def dedupFirstAux : List String → List String → List String
  | [], _ => []
  | x :: xs, seen =>
    if seen.contains x then dedupFirstAux xs seen
    else x :: dedupFirstAux xs (x :: seen)

/-- Model of `list(dict.fromkeys(xs))`. -/
def dedupFirst (l : List String) : List String :=
  dedupFirstAux l []

/-- The `record.get(k, "Unknown").strip() or "Unknown"` pattern used for
the robot, scene-type and action-space fields. -/
def getUnknown (m : List (String × String)) (k : String) : String :=
  let v := pyStrip (dgetD m k "Unknown")
  if v == "" then "Unknown" else v

/-- True when the lowered stripped control-frequency value ends in `"hz"`. -/
def lowerEndsHz (s : String) : Bool :=
  match (s.data.map Char.toLower).reverse with
  | 'z' :: 'h' :: _ => true
  | _ => false

/-- Pure part of the record construction (src/app.py lines 73-154), given
the already-parsed camera counts. -/
def buildRecordCore (m : List (String × String)) (rgb_cams depth_cams wrist_cams : Int) :
    DatasetRecord :=
  let dataset_name := pyStrip (dgetD m "Dataset" "")
  let registered := pyStrip (dgetD m "Registered Dataset Name" "")
  let dataset_id := if registered == "" then _slugify dataset_name else registered
  let url0 := pyStrip (dgetD m "Dataset URL" "")
  let langText := pyStrip (dgetD m "Language Annotations" "")
  let sensors :=
    (if rgb_cams > 0 then ["RGB"] else []) ++
    (if depth_cams > 0 then ["Depth"] else []) ++
    (if pyLower (pyStrip (dgetD m "Has Proprioception?" "")) == "yes"
      then ["Proprioception"] else []) ++
    (if langText ≠ "" ∧ ¬ ((["none", "no"] : List String).contains (pyLower langText))
      then ["Language"] else [])
  let viewpoints :=
    (if wrist_cams > 0 then ["Wrist"] else []) ++
    (if rgb_cams > 0 ∨ depth_cams > 0 then ["External"] else [])
  let frequency_raw := pyStrip (dgetD m "Control Frequency" "")
  let frequency :=
    if frequency_raw ≠ "" ∧ ¬ lowerEndsHz frequency_raw then frequency_raw ++ " Hz"
    else if frequency_raw ≠ "" then frequency_raw
    else "Unknown"
  { id := dataset_id
    name := dataset_name
    description := pyStrip (dgetD m "Description" "")
    url := if url0 == "" then none else some url0
    hardware :=
      { robot := getUnknown m "Robot"
        end_effector := getUnknown m "Gripper"
        morphology := pyStrip (dgetD m "Robot Morphology" "") }
    modality :=
      { sensors := dedupFirst sensors
        viewpoints := dedupFirst viewpoints }
    task_env :=
      { environment := getUnknown m "Scene Type"
        domain := pyStrip (dgetD m "Data Collect Method" "")
        language_labels := !((["", "none", "no"] : List String).contains (pyLower langText)) }
    engineering :=
      { format := getUnknown m "Action Space"
        frequency := frequency }
    stats :=
      { episodes := pyStrip (dgetD m "# Episodes" "")
        file_size_gb := pyStrip (dgetD m "File Size (GB)" "")
        language_annotations := langText
        data_collect_method := pyStrip (dgetD m "Data Collect Method" "")
        has_suboptimal := pyStrip (dgetD m "Has Suboptimal?" "")
        has_camera_calibration := pyStrip (dgetD m "Has Camera Calibration?" "")
        has_proprioception := pyStrip (dgetD m "Has Proprioception?" "") }
    registered_name := registered
    citation := pyStrip (dgetD m "Citation" "")
    latex_reference := pyStrip (dgetD m "Latex Reference" "")
    version := dget m "Version" }

/-- Record construction from a field map: the row is dropped (`none`) when
its `Dataset` field is blank (src/app.py lines 73-75); the three camera
counts are parsed in source order and the first uncaught exception
propagates (lines 85-87). -/
def buildRecord (m : List (String × String)) : Except PyErr (Option DatasetRecord) :=
  let dataset_name := pyStrip (dgetD m "Dataset" "")
  if dataset_name == "" then Except.ok none
  else
    match _parse_int (dget m "# RGB Cams"), _parse_int (dget m "# Depth Cams"),
          _parse_int (dget m "# Wrist Cams") with
    | Except.error e, _, _ => Except.error e
    | Except.ok _, Except.error e, _ => Except.error e
    | Except.ok _, Except.ok _, Except.error e => Except.error e
    | Except.ok rgb, Except.ok dep, Except.ok wr =>
      Except.ok (some (buildRecordCore m rgb dep wr))

/-- A row is skipped when every cell strips to the empty string
(src/app.py lines 52-53). -/
def blankRow (row : List String) : Bool :=
  row.all (fun cell => pyStrip cell == "")

/-- True when the lowered stripped first field starts with `"v"`. -/
def firstCharLowerV (s : String) : Bool :=
  match (pyLower s).data with
  | c :: _ => c == 'v'
  | [] => false

/-- Version-override stripping (src/app.py lines 55-58): a row with exactly
one field more than the header whose first field starts (case-insensitively)
with `"v"` donates that trimmed first field as a version override. -/
def stripVersion (num_columns : Nat) (row : List String) : Option String × List String :=
  if row.length == num_columns + 1 && firstCharLowerV (pyStrip row.headI) then
    (some (pyStrip row.headI), row.tail)
  else (none, row)

/-- Replace the last element of a nonempty list. -/
def setLast (l : List String) (v : String) : List String :=
  match l with
  | [] => []
  | _ => l.dropLast ++ [v]

/-- Single-space join, Python `" ".join(parts)`. -/
def joinSp (parts : List String) : String :=
  String.intercalate " " parts

/-- Width reconciliation (src/app.py lines 60-67): overlong rows are
truncated and the overflow is joined, by single spaces, onto the last kept
field, skipping parts that strip to blank; short rows are right-padded with
empty strings.  `load_data` only calls this with `0 < num_columns`, so the
last kept field always exists. -/
def fixWidth (num_columns : Nat) (row : List String) : List String :=
  if num_columns < row.length then
    let overflow := row.drop num_columns
    let kept := row.take num_columns
    let combined := joinSp ((kept.getLastD "" :: overflow).filter (fun part => !(pyStrip part == "")))
    setLast kept (pyStrip combined)
  else if row.length < num_columns then
    row ++ List.replicate (num_columns - row.length) ""
  else row

/-- Processing of a single data row (src/app.py lines 51-154): skip blank
rows, strip a version override, reconcile the width, zip with the header
and build the record. -/
def processRow (num_columns : Nat) (header : List String) (row : List String) :
    Except PyErr (Option DatasetRecord) :=
  if blankRow row then Except.ok none
  else
    let vr := stripVersion num_columns row
    buildRecord (mkRecordDict header (fixWidth num_columns vr.2) vr.1)

/-- Sequential processing of the data rows: records are appended in source
order and the first uncaught exception aborts the load. -/
def loadRows (num_columns : Nat) (header : List String) :
    List (List String) → Except PyErr (List DatasetRecord)
  | [] => Except.ok []
  | r :: rs =>
    match processRow num_columns header r with
    | Except.error e => Except.error e
    | Except.ok rec? =>
      match loadRows num_columns header rs with
      | Except.error e => Except.error e
      | Except.ok rest =>
        Except.ok (match rec? with
          | some rec => rec :: rest
          | none => rest)

/-- Model of `load_data` (src/app.py lines 39-156) from the parsed TSV
cells: an empty (or missing) header yields an empty load, otherwise each
row is processed against the header. -/
def load_data (header : List String) (rows : List (List String)) :
    Except PyErr (List DatasetRecord) :=
  if header.isEmpty then Except.ok []
  else loadRows header.length header rows

/-- Distinct robot values of the loaded records, sorted (src/app.py
line 227): the default selection of the robot multiselect. -/
def all_robots (data : List DatasetRecord) : List String :=
  (dedupFirst (data.map (fun d => d.hardware.robot))).insertionSort (fun a b => a ≤ b)

/-- Distinct scene-type values of the loaded records, sorted (src/app.py
line 228): the default selection of the environment multiselect. -/
def all_envs (data : List DatasetRecord) : List String :=
  (dedupFirst (data.map (fun d => d.task_env.environment))).insertionSort (fun a b => a ≤ b)

/-- The sidebar filter (src/app.py lines 234-238): keep a record iff its
robot is among the selected robots and its scene type is among the selected
environments. -/
def filtered_data (data : List DatasetRecord) (selected_robots selected_envs : List String) :
    List DatasetRecord :=
  data.filter (fun d =>
    selected_robots.contains d.hardware.robot && selected_envs.contains d.task_env.environment)

/-- Node color: either a plain color string or the border/background pair
used by the image-bearing robot nodes. -/
inductive GColor where
  | plain (c : String)
  | borderBg (border background : String)
deriving DecidableEq

/-- One `streamlit_agraph` node as constructed by `add_node`. -/
structure GNode where
  id : String
  label : String
  title : String
  color : GColor
  shape : String
  size : Nat
  image : Option String
deriving DecidableEq

/-- One `streamlit_agraph` edge as appended by the projection loop; every
edge in the source carries `arrows="to"`, which is omitted here as a
constant. -/
structure GEdge where
  source : String
  target : String
  color : String
  title : String
deriving DecidableEq

/-- Accumulated projection state: emitted nodes and edges plus the
`existing_nodes` set of already-emitted node ids (modelled as a list). -/
structure ProjState where
  nodes : List GNode
  edges : List GEdge
  existing : List String
deriving DecidableEq

/-- Model of `add_node` (src/app.py lines 247-261): a node is appended only
when its id has not been emitted yet; the displayed title falls back to the
label and then to the id. -/
def add_node (st : ProjState) (id label : String) (color : GColor) (shape : String)
    (size : Nat) (title : Option String) (image : Option String) : ProjState :=
  if st.existing.contains id then st
  else
    let node_title := title.getD (if label == "" then id else label)
    { st with
      nodes := st.nodes ++ [{ id := id, label := label, title := node_title,
                              color := color, shape := shape, size := size, image := image }]
      existing := id :: st.existing }

/-- Tooltip of a dataset node (src/app.py lines 271-281). -/
def datasetTitle (d : DatasetRecord) : String :=
  String.intercalate "\n"
    ([d.name,
      "Robot: " ++ d.hardware.robot,
      "Scene: " ++ d.task_env.environment,
      "Action space: " ++ d.engineering.format] ++
     (if d.stats.episodes ≠ "" then ["Episodes: " ++ d.stats.episodes] else []) ++
     (match d.version with
      | some v => if v ≠ "" then ["Version: " ++ v] else []
      | none => []))

/-- Append one edge to the accumulated edge list. -/
def addEdge (st : ProjState) (e : GEdge) : ProjState :=
  { st with edges := st.edges ++ [e] }

/-- The `robot_images.get(robot_name)` lookup; an absent robot yields the
falsy empty string, as does an empty configured data URI. -/
def lookupRobotImage (robot_images : List (String × String)) (robot_name : String) : String :=
  ((robot_images.find? (fun p => p.fst == robot_name)).map Prod.snd).getD ""

/-- The dataset node emission (src/app.py line 282). -/
def addDatasetNode (st : ProjState) (d : DatasetRecord) : ProjState :=
  add_node st d.id d.name (GColor.plain "#00C49F") "dot" 12 (some (datasetTitle d)) (some "")

/-- The robot node emission (src/app.py lines 284-303): image-bearing when
an image is configured for the robot, plain otherwise. -/
def addRobotNode (robot_images : List (String × String)) (st : ProjState)
    (d : DatasetRecord) : ProjState :=
  let robot_name := d.hardware.robot
  let robot_image := lookupRobotImage robot_images robot_name
  if robot_image ≠ "" then
    add_node st ("robot_" ++ robot_name) robot_name (GColor.borderBg "#FFBB28" "#ffffff")
      "circularImage" 36 (some ("Robot: " ++ robot_name)) (some robot_image)
  else
    add_node st ("robot_" ++ robot_name) robot_name (GColor.plain "#FFBB28") "dot" 18
      (some ("Robot: " ++ robot_name)) none

/-- The robot→dataset edge (src/app.py lines 304-312). -/
def robotEdge (d : DatasetRecord) : GEdge :=
  { source := "robot_" ++ d.hardware.robot, target := d.id, color := "#FFBB28",
    title := "Robot: " ++ d.hardware.robot }

/-- The scene node emission (src/app.py lines 314-315). -/
def addSceneNode (st : ProjState) (d : DatasetRecord) : ProjState :=
  add_node st ("scene_" ++ d.task_env.environment) "" (GColor.plain "#FF8042") "dot" 10
    (some ("Scene: " ++ d.task_env.environment)) none

/-- The dataset→scene edge (src/app.py lines 316-324). -/
def sceneEdge (d : DatasetRecord) : GEdge :=
  { source := d.id, target := "scene_" ++ d.task_env.environment, color := "#FF8042",
    title := "Scene: " ++ d.task_env.environment }

/-- The action-space node emission (src/app.py lines 326-327). -/
def addActionNode (st : ProjState) (d : DatasetRecord) : ProjState :=
  add_node st ("action_" ++ d.engineering.format) "" (GColor.plain "#8884d8") "dot" 10
    (some ("Action space: " ++ d.engineering.format)) none

/-- The dataset→action-space edge (src/app.py lines 328-336). -/
def actionEdge (d : DatasetRecord) : GEdge :=
  { source := d.id, target := "action_" ++ d.engineering.format, color := "#8884d8",
    title := "Action space: " ++ d.engineering.format }

/-- Projection of one filtered record (src/app.py lines 263-336), in source
order: dataset node, robot node, robot→dataset edge, scene node,
dataset→scene edge, action node, dataset→action edge. -/
def projectRecord (robot_images : List (String × String)) (st : ProjState)
    (d : DatasetRecord) : ProjState :=
  let st1 := addDatasetNode st d
  let st2 := addRobotNode robot_images st1 d
  let st3 := addEdge st2 (robotEdge d)
  let st4 := addSceneNode st3 d
  let st5 := addEdge st4 (sceneEdge d)
  let st6 := addActionNode st5 d
  addEdge st6 (actionEdge d)

/-- One projection run over the filtered records, starting from empty node,
edge and id-set accumulators (src/app.py lines 243-336). -/
def project (robot_images : List (String × String)) (data : List DatasetRecord) : ProjState :=
  data.foldl (projectRecord robot_images) ⟨[], [], []⟩

/-- Ids of the emitted nodes, in emission order. -/
def nodeIds (st : ProjState) : List String :=
  st.nodes.map GNode.id

/-- Number of emitted nodes carrying a given id. -/
def countId (st : ProjState) (x : String) : Nat :=
  st.nodes.countP (fun n => n.id == x)

/-- Model of the click-to-detail lookup (src/app.py line 389):
`next((item for item in data if item["id"] == clicked_node_id), None)`,
searching the unfiltered record list. -/
def lookupClicked (data : List DatasetRecord) (clicked : String) : Option DatasetRecord :=
  data.find? (fun d => d.id == clicked)

/-- Rendering of the overflow-join rule exactly as the specification words
it: the last header-column's value joined with all overflow fields using a
single space, trimmed.  Stated for comparison with `fixWidth`, which skips
parts that strip to blank. -/
def specOverflowJoin (lastVal : String) (overflow : List String) : String :=
  pyStrip (joinSp (lastVal :: overflow))

/-- Structural invariant of a projection state: emitted node ids are
distinct, the `existing` id set tracks exactly the emitted node ids, and
every emitted edge's endpoints are emitted node ids. -/
def stInv (st : ProjState) : Prop :=
  (nodeIds st).Nodup
  ∧ (∀ x, x ∈ st.existing ↔ x ∈ nodeIds st)
  ∧ (∀ e ∈ st.edges, e.source ∈ nodeIds st ∧ e.target ∈ nodeIds st)

/-- A blank statistics bag, for concrete sample records. -/
def blankStats : StatsBag :=
  { episodes := "", file_size_gb := "", language_annotations := "",
    data_collect_method := "", has_suboptimal := "", has_camera_calibration := "",
    has_proprioception := "" }

/-- The record loaded from header `["Dataset"]` and row `["d"]`. -/
def recD : DatasetRecord :=
  { id := "d", name := "d", description := "", url := none,
    hardware := { robot := "Unknown", end_effector := "Unknown", morphology := "" },
    modality := { sensors := [], viewpoints := [] },
    task_env := { environment := "Unknown", domain := "", language_labels := false },
    engineering := { format := "Unknown", frequency := "Unknown" },
    stats := blankStats,
    registered_name := "", citation := "", latex_reference := "", version := none }

/-- The record loaded from header `["Dataset", "Registered Dataset Name"]`
and row `["B", "dup"]`. -/
def recBdup : DatasetRecord :=
  { id := "dup", name := "B", description := "", url := none,
    hardware := { robot := "Unknown", end_effector := "Unknown", morphology := "" },
    modality := { sensors := [], viewpoints := [] },
    task_env := { environment := "Unknown", domain := "", language_labels := false },
    engineering := { format := "Unknown", frequency := "Unknown" },
    stats := blankStats,
    registered_name := "dup", citation := "", latex_reference := "", version := none }

/-- The record loaded from header `["Dataset"]` and the version-prefixed
row `["v1.2", "ds"]`. -/
def recV : DatasetRecord :=
  { id := "ds", name := "ds", description := "", url := none,
    hardware := { robot := "Unknown", end_effector := "Unknown", morphology := "" },
    modality := { sensors := [], viewpoints := [] },
    task_env := { environment := "Unknown", domain := "", language_labels := false },
    engineering := { format := "Unknown", frequency := "Unknown" },
    stats := blankStats,
    registered_name := "", citation := "", latex_reference := "", version := some "v1.2" }

/-- The record loaded from header `["Dataset", "Language Annotations"]` and
row `["d", "English"]`. -/
def recLang : DatasetRecord :=
  { id := "d", name := "d", description := "", url := none,
    hardware := { robot := "Unknown", end_effector := "Unknown", morphology := "" },
    modality := { sensors := ["Language"], viewpoints := [] },
    task_env := { environment := "Unknown", domain := "", language_labels := true },
    engineering := { format := "Unknown", frequency := "Unknown" },
    stats := { blankStats with language_annotations := "English" },
    registered_name := "", citation := "", latex_reference := "", version := none }

/-- Field map of the sensor-derivation example: RGB count 3, depth count 0,
proprioception `"Yes"`, language annotations `"English"`. -/
def mSensors : List (String × String) :=
  [("Dataset", "d"), ("# RGB Cams", "3"), ("# Depth Cams", "0"),
   ("Has Proprioception?", "Yes"), ("Language Annotations", "English")]

/-- The record built from `mSensors`. -/
def recSensors : DatasetRecord :=
  { id := "d", name := "d", description := "", url := none,
    hardware := { robot := "Unknown", end_effector := "Unknown", morphology := "" },
    modality := { sensors := ["RGB", "Proprioception", "Language"], viewpoints := ["External"] },
    task_env := { environment := "Unknown", domain := "", language_labels := true },
    engineering := { format := "Unknown", frequency := "Unknown" },
    stats := { blankStats with language_annotations := "English", has_proprioception := "Yes" },
    registered_name := "", citation := "", latex_reference := "", version := none }

/-- A sample record on robot `"UR5"` with id `"d1"`, for the projection
witness. -/
def recU1 : DatasetRecord :=
  { id := "d1", name := "d1", description := "", url := none,
    hardware := { robot := "UR5", end_effector := "Unknown", morphology := "" },
    modality := { sensors := [], viewpoints := [] },
    task_env := { environment := "Unknown", domain := "", language_labels := false },
    engineering := { format := "Unknown", frequency := "Unknown" },
    stats := blankStats,
    registered_name := "", citation := "", latex_reference := "", version := none }

/-- A second sample record on robot `"UR5"`, with id `"d2"`. -/
def recU2 : DatasetRecord :=
  { id := "d2", name := "d2", description := "", url := none,
    hardware := { robot := "UR5", end_effector := "Unknown", morphology := "" },
    modality := { sensors := [], viewpoints := [] },
    task_env := { environment := "Unknown", domain := "", language_labels := false },
    engineering := { format := "Unknown", frequency := "Unknown" },
    stats := blankStats,
    registered_name := "", citation := "", latex_reference := "", version := none }

example : _parse_int (some "3") = Except.ok 3 := by decide
example : _parse_int (some " 1,234 ") = Except.ok 1234 := by decide
example : _parse_int (some "3.7") = Except.ok 3 := by decide
example : _parse_int (some "-3.7") = Except.ok (-3) := by decide
example : _parse_int (some "nan") = Except.ok 0 := by decide
example : _parse_int (some "1_0e1") = Except.ok 100 := by decide
example : _parse_int (some "1__0") = Except.ok 0 := by decide
example : _parse_int (some "-Infinity") = Except.error PyErr.overflowError := by decide
example : _slugify "RT-1 Robot Data!!" = "rt-1-robot-data" := by decide
example : _slugify "" = "dataset" := by decide
example : _slugify "!!!" = "dataset" := by decide
example : load_data ["Dataset"] [["d"]] = Except.ok [recD] := by decide
example : load_data ["Dataset", "Registered Dataset Name"] [["B", "dup"]] =
    Except.ok [recBdup] := by decide
example : load_data ["Dataset"] [["v1.2", "ds"]] = Except.ok [recV] := by decide
example : load_data ["Dataset", "Language Annotations"] [["d", "English"]] =
    Except.ok [recLang] := by decide
example : buildRecord mSensors = Except.ok (some recSensors) := by decide

lemma string_eq_empty_iff (s : String) : s = "" ↔ s.data = [] := by
  constructor
  · intro h; rw [h]
  · intro h
    cases s with
    | mk l =>
      have : l = [] := h
      rw [this]

lemma pyLower_eq_empty_iff (s : String) : pyLower s = "" ↔ s = "" := by
  rw [string_eq_empty_iff, string_eq_empty_iff]
  show s.data.map Char.toLower = [] ↔ s.data = []
  simp

lemma mem_dedupFirstAux (l : List String) :
    ∀ (seen : List String) (x : String),
      x ∈ dedupFirstAux l seen ↔ (x ∈ l ∧ x ∉ seen) := by
  induction l with
  | nil => intro seen x; simp [dedupFirstAux]
  | cons y ys ih =>
    intro seen x
    rw [dedupFirstAux]
    by_cases hy : seen.contains y
    · rw [if_pos hy, ih]
      have hymem : y ∈ seen := by simpa using hy
      constructor
      · rintro ⟨h1, h2⟩; exact ⟨List.mem_cons_of_mem _ h1, h2⟩
      · rintro ⟨h1, h2⟩
        rcases List.mem_cons.mp h1 with rfl | h1
        · exact absurd hymem h2
        · exact ⟨h1, h2⟩
    · rw [if_neg hy]
      have hynot : y ∉ seen := by simpa using hy
      constructor
      · intro h
        rcases List.mem_cons.mp h with rfl | h
        · exact ⟨List.mem_cons_self _ _, hynot⟩
        · rcases (ih _ _).mp h with ⟨h1, h2⟩
          simp only [List.mem_cons, not_or] at h2
          exact ⟨List.mem_cons_of_mem _ h1, h2.2⟩
      · rintro ⟨h1, h2⟩
        rcases List.mem_cons.mp h1 with rfl | h1
        · exact List.mem_cons_self _ _
        · by_cases hxy : x = y
          · subst hxy; exact List.mem_cons_self _ _
          · exact List.mem_cons_of_mem _ ((ih _ _).mpr ⟨h1, by simp [hxy, h2]⟩)

lemma mem_dedupFirst (l : List String) (x : String) :
    x ∈ dedupFirst l ↔ x ∈ l := by
  rw [dedupFirst, mem_dedupFirstAux]; simp

lemma buildRecord_ok_some {m : List (String × String)} {rec : DatasetRecord}
    (h : buildRecord m = Except.ok (some rec)) :
    pyStrip (dgetD m "Dataset" "") ≠ ""
    ∧ ∃ rgb dep wr,
        _parse_int (dget m "# RGB Cams") = Except.ok rgb
        ∧ _parse_int (dget m "# Depth Cams") = Except.ok dep
        ∧ _parse_int (dget m "# Wrist Cams") = Except.ok wr
        ∧ rec = buildRecordCore m rgb dep wr := by
  by_cases hb : pyStrip (dgetD m "Dataset" "") = ""
  · simp [buildRecord, hb] at h
  · refine ⟨hb, ?_⟩
    have hb' : (pyStrip (dgetD m "Dataset" "") == "") = false := by
      simpa using hb
    simp only [buildRecord, hb', Bool.false_eq_true, if_false] at h
    cases h1 : _parse_int (dget m "# RGB Cams") with
    | error e => rw [h1] at h; cases h
    | ok rgb =>
      cases h2 : _parse_int (dget m "# Depth Cams") with
      | error e => rw [h1, h2] at h; cases h
      | ok dep =>
        cases h3 : _parse_int (dget m "# Wrist Cams") with
        | error e => rw [h1, h2, h3] at h; cases h
        | ok wr =>
          rw [h1, h2, h3] at h
          simp only [Except.ok.injEq, Option.some.injEq] at h
          exact ⟨rgb, dep, wr, rfl, rfl, rfl, h.symm⟩

lemma processRow_ok_some {n : Nat} {header row : List String} {rec : DatasetRecord}
    (h : processRow n header row = Except.ok (some rec)) :
    blankRow row = false
    ∧ buildRecord (mkRecordDict header (fixWidth n (stripVersion n row).2)
        (stripVersion n row).1) = Except.ok (some rec) := by
  by_cases hb : blankRow row
  · simp [processRow, hb] at h
  · have hb' : blankRow row = false := by simpa using hb
    exact ⟨hb', by simpa [processRow, hb'] using h⟩

lemma loadRows_mem {n : Nat} {header : List String} {rows : List (List String)}
    {recs : List DatasetRecord} {rec : DatasetRecord}
    (h : loadRows n header rows = Except.ok recs) (hm : rec ∈ recs) :
    ∃ row ∈ rows, processRow n header row = Except.ok (some rec) := by
  induction rows generalizing recs with
  | nil =>
    rw [loadRows] at h
    cases h
    cases hm
  | cons r rs ih =>
    rw [loadRows] at h
    cases hp : processRow n header r with
    | error e => rw [hp] at h; cases h
    | ok rec? =>
      rw [hp] at h
      cases hl : loadRows n header rs with
      | error e => rw [hl] at h; cases h
      | ok rest =>
        rw [hl] at h
        cases rec? with
        | some rec' =>
          simp only [Except.ok.injEq] at h
          rw [← h] at hm
          rcases List.mem_cons.mp hm with rfl | hm'
          · exact ⟨r, List.mem_cons_self _ _, hp⟩
          · obtain ⟨row, hrow, hpr⟩ := ih hl hm'
            exact ⟨row, List.mem_cons_of_mem _ hrow, hpr⟩
        | none =>
          simp only [Except.ok.injEq] at h
          rw [← h] at hm
          obtain ⟨row, hrow, hpr⟩ := ih hl hm
          exact ⟨row, List.mem_cons_of_mem _ hrow, hpr⟩

lemma load_data_mem {header : List String} {rows : List (List String)}
    {recs : List DatasetRecord} {rec : DatasetRecord}
    (h : load_data header rows = Except.ok recs) (hm : rec ∈ recs) :
    ∃ row ∈ rows, processRow header.length header row = Except.ok (some rec) := by
  by_cases hh : header.isEmpty
  · simp [load_data, hh] at h
    subst h
    cases hm
  · have hh' : header.isEmpty = false := by simpa using hh
    rw [load_data, hh'] at h
    simp only [Bool.false_eq_true, if_false] at h
    exact loadRows_mem h hm

lemma loadRows_append_ok {n : Nat} {header : List String} {rows1 : List (List String)}
    {recs1 : List DatasetRecord} (h : loadRows n header rows1 = Except.ok recs1)
    (rows2 : List (List String)) :
    loadRows n header (rows1 ++ rows2) =
      (loadRows n header rows2).map (fun r2 => recs1 ++ r2) := by
  induction rows1 generalizing recs1 with
  | nil =>
    rw [loadRows] at h
    cases h
    cases h2 : loadRows n header rows2 with
    | error e => simp [h2, Except.map]
    | ok r2 => simp [h2, Except.map]
  | cons r rs ih =>
    rw [loadRows] at h
    cases hp : processRow n header r with
    | error e => rw [hp] at h; cases h
    | ok rec? =>
      rw [hp] at h
      cases hl : loadRows n header rs with
      | error e => rw [hl] at h; cases h
      | ok rest =>
        rw [hl] at h
        simp only [Except.ok.injEq] at h
        show loadRows n header (r :: (rs ++ rows2)) = _
        rw [loadRows, hp, ih hl]
        cases h2 : loadRows n header rows2 with
        | error e => simp [Except.map]
        | ok r2 =>
          simp only [Except.map, Except.ok.injEq]
          rw [← h]
          cases rec? with
          | some rec => simp
          | none => simp

lemma dget_append_single (m : List (String × String)) (k v : String) :
    dget (m ++ [(k, v)]) k = some v := by
  unfold dget
  rw [List.reverse_append]
  simp only [List.reverse_cons, List.reverse_nil, List.nil_append, List.singleton_append]
  rw [List.find?_cons_of_pos _ (by simp)]
  rfl

lemma dget_zip_last {header row : List String} (hne : header ≠ [])
    (hlen : header.length = row.length) :
    dget (header.zip row) (header.getLastD "") = some (row.getLastD "") := by
  rcases List.eq_nil_or_concat header with h | ⟨h', a, ha⟩
  · exact absurd h hne
  · rcases List.eq_nil_or_concat row with h | ⟨r', b, hb⟩
    · rw [ha, h, List.length_concat] at hlen
      simp at hlen
    · rw [List.concat_eq_append] at ha hb
      subst ha
      subst hb
      have hl : h'.length = r'.length := by
        simp only [List.length_append, List.length_singleton] at hlen
        omega
      rw [List.zip_append hl]
      have hz : [a].zip [b] = [(a, b)] := rfl
      rw [hz]
      have hga : (h' ++ [a]).getLastD "" = a := by simp
      have hgb : (r' ++ [b]).getLastD "" = b := by simp
      rw [hga, hgb, dget_append_single]

lemma setLast_ne_nil {l : List String} (h : l ≠ []) (v : String) :
    setLast l v = l.dropLast ++ [v] := by
  cases l with
  | nil => exact absurd rfl h
  | cons a t => rfl

lemma fixWidth_overflow {n : Nat} {row : List String} (hn : 0 < n)
    (hlen : n < row.length) :
    fixWidth n row =
      (row.take n).dropLast ++
        [pyStrip (joinSp (((row.take n).getLastD "" :: row.drop n).filter
          (fun part => !(pyStrip part == ""))))] := by
  have hk : row.take n ≠ [] := by
    have h1 : (row.take n).length = n := by
      rw [List.length_take]; omega
    intro h
    rw [h] at h1
    simp at h1
    omega
  simp only [fixWidth, if_pos hlen]
  exact setLast_ne_nil hk _

lemma firstCharLowerV_ne_empty {s : String} (h : firstCharLowerV s = true) : s ≠ "" := by
  intro he
  rw [he] at h
  exact absurd h (by decide)

lemma buildRecordCore_version (m : List (String × String)) (a b c : Int) :
    (buildRecordCore m a b c).version = dget m "Version" := rfl

lemma buildRecordCore_robot (m : List (String × String)) (a b c : Int) :
    (buildRecordCore m a b c).hardware.robot = getUnknown m "Robot" := rfl

lemma buildRecordCore_env (m : List (String × String)) (a b c : Int) :
    (buildRecordCore m a b c).task_env.environment = getUnknown m "Scene Type" := rfl

lemma buildRecordCore_format (m : List (String × String)) (a b c : Int) :
    (buildRecordCore m a b c).engineering.format = getUnknown m "Action Space" := rfl

/-- C1: the claim says `_parse_int` "returns an integer and never raises"
and that "no input string causes the loader to fail".  The parser does
strip thousands-separators, accept floating-point text and default
unparseable or empty text to zero, but `int(float("inf"))` raises
`OverflowError`, which the `except ValueError` handler does not catch, so
the text `"inf"` in a camera-count field crashes the loader. -/
theorem c1_parse_int_overflow_uncaught :
    _parse_int (some "inf") = Except.error PyErr.overflowError
    ∧ load_data ["Dataset", "# RGB Cams"] [["d", "inf"]] = Except.error PyErr.overflowError
    ∧ _parse_int (some " 1,234 ") = Except.ok 1234
    ∧ _parse_int (some "3.7") = Except.ok 3
    ∧ _parse_int (some "abc") = Except.ok 0
    ∧ _parse_int (some "") = Except.ok 0
    ∧ _parse_int none = Except.ok 0 := by decide

/-- C2 counterexample: with two source rows both deriving id `"dup"`, the
loader keeps both records (ids are not unique: the id list is
`["dup", "dup"]`), and the click-to-detail lookup returns the FIRST row's
record (name `"A"`), not the last row's (`"B"`) — refuting last-write-wins
overwrite. -/
theorem c2_counterexample :
    (load_data ["Dataset", "Registered Dataset Name"] [["A", "dup"], ["B", "dup"]]).map
        (fun recs => (recs.map DatasetRecord.id, (lookupClicked recs "dup").map DatasetRecord.name))
      = Except.ok (["dup", "dup"], some "A") := by decide

/-- C2 (amended): when source rows derive duplicate record ids the loader
keeps every such record in source order (appending a further row's record
never removes earlier ones), and the click-to-detail lookup returns the
first record in load order whose id matches. -/
theorem c2_duplicates_kept_lookup_first :
    ∀ (header : List String) (rows : List (List String)) (recs : List DatasetRecord)
      (r : List String) (rec : DatasetRecord) (nodeId : String)
      (l1 l2 : List DatasetRecord) (d : DatasetRecord),
      (load_data header rows = Except.ok recs → header.isEmpty = false →
        processRow header.length header r = Except.ok (some rec) →
        load_data header (rows ++ [r]) = Except.ok (recs ++ [rec]))
      ∧ ((∀ x ∈ l1, x.id ≠ nodeId) → d.id = nodeId →
          lookupClicked (l1 ++ d :: l2) nodeId = some d) := by
  intro header rows recs r rec nodeId l1 l2 d
  constructor
  · intro h1 h2 h3
    simp only [load_data, h2, Bool.false_eq_true, if_false] at h1 ⊢
    rw [loadRows_append_ok h1]
    have hone : loadRows header.length header [r] = Except.ok [rec] := by
      rw [loadRows, h3]
      rfl
    rw [hone]
    rfl
  · intro hnone hid
    induction l1 with
    | nil =>
      simp only [List.nil_append]
      unfold lookupClicked
      rw [List.find?_cons_of_pos _ (by simp [hid])]
    | cons x xs ih =>
      have hx : x.id ≠ nodeId := hnone x (List.mem_cons_self _ _)
      simp only [List.cons_append]
      unfold lookupClicked
      rw [List.find?_cons_of_neg _ (by simp [hx])]
      exact ih (fun y hy => hnone y (List.mem_cons_of_mem _ hy))

/-- C2 witness: the loader run on the single row `["B", "dup"]` appends
`recBdup`, and looking up `"dup"` in a list where it is first returns it. -/
theorem c2_witness :
    load_data ["Dataset", "Registered Dataset Name"] [["B", "dup"]] = Except.ok [recBdup]
    ∧ lookupClicked [recBdup] "dup" = some recBdup := by
  constructor
  · exact (c2_duplicates_kept_lookup_first ["Dataset", "Registered Dataset Name"] [] []
      ["B", "dup"] recBdup "dup" [] [] recBdup).1 (by decide) (by decide) (by decide)
  · exact (c2_duplicates_kept_lookup_first ["Dataset", "Registered Dataset Name"] [] []
      ["B", "dup"] recBdup "dup" [] [] recBdup).2 (by simp) rfl

/-- C3 counterexample: for the row `["x", "a", "", "b"]` against a 2-column
header, the code joins only the parts that do not strip to blank, producing
`"a b"`, while the claim's rule — join the last column's value with ALL
overflow fields using a single space, trimmed — predicts `"a  b"`. -/
theorem c3_counterexample :
    (load_data ["Dataset", "Description"] [["x", "a", "", "b"]]).map
        (List.map DatasetRecord.description) = Except.ok ["a b"]
    ∧ specOverflowJoin "a" ["", "b"] = "a  b"
    ∧ ("a b" : String) ≠ "a  b" := by decide

/-- C3 (amended): a row with strictly more fields than the header is
truncated to header width; its last column becomes the single-space join of
the last kept field and the overflow fields, OMITTING any part that strips
to blank, with the result trimmed; and that value is what the zipped field
map reports under the last header column. -/
theorem c3_overflow_join (header row : List String) (hn : 0 < header.length)
    (hlen : header.length < row.length) :
    (fixWidth header.length row).length = header.length
    ∧ (fixWidth header.length row).getLastD "" =
        pyStrip (joinSp (((row.take header.length).getLastD "" :: row.drop header.length).filter
          (fun part => !(pyStrip part == ""))))
    ∧ dget (mkRecordDict header (fixWidth header.length row) none) (header.getLastD "") =
        some ((fixWidth header.length row).getLastD "") := by
  have hfix := fixWidth_overflow hn hlen
  have htl : (row.take header.length).length = header.length := by
    rw [List.length_take]; omega
  have hlen1 : (fixWidth header.length row).length = header.length := by
    rw [hfix]
    simp only [List.length_append, List.length_dropLast, htl, List.length_singleton]
    omega
  refine ⟨hlen1, ?_, ?_⟩
  · rw [hfix]
    simp
  · rw [show mkRecordDict header (fixWidth header.length row) none =
        header.zip (fixWidth header.length row) from rfl]
    exact dget_zip_last (List.length_pos.mp hn) hlen1.symm

/-- C3 witness: the claim's own example shape — a row with header-width+2
fields whose last two are non-blank free text — joins them into the final
column with single separating spaces. -/
theorem c3_witness :
    fixWidth 2 ["x", "a", "free", "text"] = ["x", "a free text"]
    ∧ (fixWidth 2 ["x", "a", "free", "text"]).length = 2
    ∧ (fixWidth 2 ["x", "a", "free", "text"]).getLastD "" =
        pyStrip (joinSp (((["x", "a", "free", "text"].take 2).getLastD "" ::
          ["x", "a", "free", "text"].drop 2).filter (fun part => !(pyStrip part == ""))))
    ∧ dget (mkRecordDict ["Dataset", "Description"] (fixWidth 2 ["x", "a", "free", "text"]) none)
        "Description" = some ((fixWidth 2 ["x", "a", "free", "text"]).getLastD "") := by
  have h := c3_overflow_join ["Dataset", "Description"] ["x", "a", "free", "text"]
    (by decide) (by decide)
  exact ⟨by decide, h.1, h.2.1, h.2.2⟩

/-- C4: a row with exactly one more field than the header whose first field
(after trimming, case-insensitively) starts with `"v"` donates that trimmed
first field as the record's version override, the field is dropped before
zipping, and any record built from the row carries that version; rows not
meeting both conditions get no override from this rule. -/
theorem c4_version_override (header row : List String) (rec : DatasetRecord) :
    (row.length = header.length + 1 → firstCharLowerV (pyStrip row.headI) = true →
      stripVersion header.length row = (some (pyStrip row.headI), row.tail)
      ∧ (processRow header.length header row = Except.ok (some rec) →
          rec.version = some (pyStrip row.headI)))
    ∧ (¬ (row.length = header.length + 1 ∧ firstCharLowerV (pyStrip row.headI) = true) →
        stripVersion header.length row = (none, row)) := by
  constructor
  · intro h1 h2
    have hb : (row.length == header.length + 1 && firstCharLowerV (pyStrip row.headI)) = true := by
      simp [h1, h2]
    have hsv : stripVersion header.length row = (some (pyStrip row.headI), row.tail) := by
      rw [stripVersion, if_pos hb]
    refine ⟨hsv, fun hpr => ?_⟩
    obtain ⟨hblank, hbuild⟩ := processRow_ok_some hpr
    rw [hsv] at hbuild
    obtain ⟨hname, rgb, dep, wr, _, _, _, hrec⟩ := buildRecord_ok_some hbuild
    rw [hrec, buildRecordCore_version]
    have hv : pyStrip row.headI ≠ "" := firstCharLowerV_ne_empty h2
    have hv' : (pyStrip row.headI == "") = false := beq_eq_false_iff_ne.mpr hv
    simp only [mkRecordDict, hv', Bool.false_eq_true, if_false]
    exact dget_append_single _ _ _
  · intro hc
    rw [stripVersion, if_neg]
    intro hcond
    simp only [Bool.and_eq_true, beq_iff_eq] at hcond
    exact hc hcond

/-- C4 witness: the row `["v1.2", "ds"]` against the 1-column header
`["Dataset"]` yields version `"v1.2"` on the loaded record. -/
theorem c4_witness :
    stripVersion 1 ["v1.2", "ds"] = (some "v1.2", ["ds"])
    ∧ recV.version = some "v1.2" := by
  have h := (c4_version_override ["Dataset"] ["v1.2", "ds"] recV).1 (by decide) (by decide)
  exact ⟨by simpa using h.1, h.2 (by decide)⟩

lemma getUnknown_eq_ite (m : List (String × String)) (k : String) :
    getUnknown m k =
      if pyStrip (dgetD m k "Unknown") == "" then "Unknown"
      else pyStrip (dgetD m k "Unknown") := rfl

lemma getUnknown_ne_empty (m : List (String × String)) (k : String) :
    getUnknown m k ≠ "" := by
  rw [getUnknown_eq_ite]
  by_cases h : pyStrip (dgetD m k "Unknown") = ""
  · rw [if_pos (by simp [h])]
    decide
  · rw [if_neg (by simp [h])]
    exact h

lemma getUnknown_blank (m : List (String × String)) (k : String)
    (h : (dget m k).all (fun v => pyStrip v == "") = true) :
    getUnknown m k = "Unknown" := by
  rw [getUnknown_eq_ite]
  have hd : dgetD m k "Unknown" = (dget m k).getD "Unknown" := rfl
  cases hg : dget m k with
  | none =>
    rw [hd, hg]
    decide
  | some s =>
    rw [hg] at h
    simp only [Option.all_some] at h
    rw [hd, hg]
    simp only [Option.getD_some]
    rw [if_pos h]

lemma contains_iff_mem (l : List String) (x : String) :
    l.contains x = true ↔ x ∈ l :=
  List.elem_iff

lemma mem_ite_singleton {c : Prop} [Decidable c] (x y : String) :
    x ∈ (if c then [y] else []) ↔ (c ∧ x = y) := by
  by_cases hc : c <;> simp [hc]

lemma buildRecordCore_sensors (m : List (String × String)) (a b c : Int) :
    (buildRecordCore m a b c).modality.sensors =
      dedupFirst
        ((if a > 0 then ["RGB"] else []) ++
         (if b > 0 then ["Depth"] else []) ++
         (if pyLower (pyStrip (dgetD m "Has Proprioception?" "")) == "yes"
            then ["Proprioception"] else []) ++
         (if pyStrip (dgetD m "Language Annotations" "") ≠ "" ∧
             ¬ ((["none", "no"] : List String).contains
               (pyLower (pyStrip (dgetD m "Language Annotations" ""))))
            then ["Language"] else [])) := rfl

lemma buildRecordCore_labels (m : List (String × String)) (a b c : Int) :
    (buildRecordCore m a b c).task_env.language_labels =
      !((["", "none", "no"] : List String).contains
        (pyLower (pyStrip (dgetD m "Language Annotations" "")))) := rfl

lemma mem_sensors_char (m : List (String × String)) (a b c : Int) (x : String) :
    x ∈ (buildRecordCore m a b c).modality.sensors ↔
      ((a > 0 ∧ x = "RGB") ∨ (b > 0 ∧ x = "Depth")
        ∨ ((pyLower (pyStrip (dgetD m "Has Proprioception?" "")) == "yes") = true
            ∧ x = "Proprioception")
        ∨ ((pyStrip (dgetD m "Language Annotations" "") ≠ ""
            ∧ ¬ ((["none", "no"] : List String).contains
                (pyLower (pyStrip (dgetD m "Language Annotations" "")))))
           ∧ x = "Language")) := by
  rw [buildRecordCore_sensors, mem_dedupFirst]
  simp only [List.mem_append, mem_ite_singleton]
  rw [or_assoc, or_assoc]

/-- C6: every loaded record has nonempty robot, environment and format
fields, and whenever the corresponding source field is missing or blank
after trimming, the built record carries the literal `"Unknown"` there. -/
theorem c6_unknown_defaults (header : List String) (rows : List (List String))
    (recs : List DatasetRecord) (rec : DatasetRecord) (m : List (String × String)) :
    (load_data header rows = Except.ok recs → rec ∈ recs →
      rec.hardware.robot ≠ "" ∧ rec.task_env.environment ≠ "" ∧ rec.engineering.format ≠ "")
    ∧ (buildRecord m = Except.ok (some rec) →
        ((dget m "Robot").all (fun v => pyStrip v == "") = true →
            rec.hardware.robot = "Unknown")
        ∧ ((dget m "Scene Type").all (fun v => pyStrip v == "") = true →
            rec.task_env.environment = "Unknown")
        ∧ ((dget m "Action Space").all (fun v => pyStrip v == "") = true →
            rec.engineering.format = "Unknown")) := by
  constructor
  · intro hl hm
    obtain ⟨row, _, hpr⟩ := load_data_mem hl hm
    obtain ⟨_, hbuild⟩ := processRow_ok_some hpr
    obtain ⟨_, rgb, dep, wr, _, _, _, hrec⟩ := buildRecord_ok_some hbuild
    rw [hrec, buildRecordCore_robot, buildRecordCore_env, buildRecordCore_format]
    exact ⟨getUnknown_ne_empty _ _, getUnknown_ne_empty _ _, getUnknown_ne_empty _ _⟩
  · intro hb
    obtain ⟨_, rgb, dep, wr, _, _, _, hrec⟩ := buildRecord_ok_some hb
    rw [hrec, buildRecordCore_robot, buildRecordCore_env, buildRecordCore_format]
    exact ⟨fun h => getUnknown_blank _ _ h, fun h => getUnknown_blank _ _ h,
      fun h => getUnknown_blank _ _ h⟩

/-- C6 witness: the record loaded from a row carrying only a dataset name
has nonempty robot/environment/format, all equal to `"Unknown"`. -/
theorem c6_witness :
    (recD.hardware.robot ≠ "" ∧ recD.task_env.environment ≠ "" ∧ recD.engineering.format ≠ "")
    ∧ recD.hardware.robot = "Unknown" ∧ recD.task_env.environment = "Unknown"
    ∧ recD.engineering.format = "Unknown" := by
  refine ⟨?_, ?_, ?_, ?_⟩
  · exact (c6_unknown_defaults ["Dataset"] [["d"]] [recD] recD [("Dataset", "d")]).1
      (by decide) (by simp)
  · exact ((c6_unknown_defaults ["Dataset"] [["d"]] [recD] recD [("Dataset", "d")]).2
      (by decide)).1 (by decide)
  · exact ((c6_unknown_defaults ["Dataset"] [["d"]] [recD] recD [("Dataset", "d")]).2
      (by decide)).2.1 (by decide)
  · exact ((c6_unknown_defaults ["Dataset"] [["d"]] [recD] recD [("Dataset", "d")]).2
      (by decide)).2.2 (by decide)

/-- C7: the filter keeps exactly the records whose robot and environment
are selected, preserves relative order (the result is a sublist of the
input), and selecting every observed robot and environment returns the
record list unchanged. -/
theorem c7_filter (data : List DatasetRecord) (R E : List String) :
    List.Sublist (filtered_data data R E) data
    ∧ (∀ d, d ∈ filtered_data data R E ↔
        (d ∈ data ∧ d.hardware.robot ∈ R ∧ d.task_env.environment ∈ E))
    ∧ filtered_data data (all_robots data) (all_envs data) = data := by
  refine ⟨List.filter_sublist _, fun d => ?_, ?_⟩
  · unfold filtered_data
    rw [List.mem_filter, Bool.and_eq_true, contains_iff_mem, contains_iff_mem]
  · apply List.filter_eq_self.mpr
    intro d hd
    rw [Bool.and_eq_true, contains_iff_mem, contains_iff_mem]
    constructor
    · unfold all_robots
      rw [List.Perm.mem_iff (List.perm_insertionSort _ _), mem_dedupFirst, List.mem_map]
      exact ⟨d, hd, rfl⟩
    · unfold all_envs
      rw [List.Perm.mem_iff (List.perm_insertionSort _ _), mem_dedupFirst, List.mem_map]
      exact ⟨d, hd, rfl⟩

/-- C7 witness: with the full default selections, the filter returns the
loaded list unchanged. -/
theorem c7_witness :
    filtered_data [recD] (all_robots [recD]) (all_envs [recD]) = [recD] :=
  (c7_filter [recD] (all_robots [recD]) (all_envs [recD])).2.2

/-- C9: the click-to-detail lookup searches the unfiltered record list by
id — an id carried by no loaded record (such as an attribute-node id)
yields no match, and an id carried by some record yields a matching
record of that id from the unfiltered list. -/
theorem c9_click_lookup (data : List DatasetRecord) (nodeId : String) :
    ((∀ d ∈ data, d.id ≠ nodeId) → lookupClicked data nodeId = none)
    ∧ (∀ d ∈ data, d.id = nodeId →
        ∃ r, lookupClicked data nodeId = some r ∧ r ∈ data ∧ r.id = nodeId) := by
  constructor
  · intro h
    apply List.find?_eq_none.mpr
    intro x hx
    simp [h x hx]
  · intro d hd hid
    have hsome : (lookupClicked data nodeId).isSome := by
      unfold lookupClicked
      rw [List.find?_isSome]
      exact ⟨d, hd, by simp [hid]⟩
    obtain ⟨r, hr⟩ := Option.isSome_iff_exists.mp hsome
    refine ⟨r, hr, List.mem_of_find?_eq_some hr, ?_⟩
    have := List.find?_some hr
    simpa using this

/-- C9 witness: clicking the attribute-style id `"env_Kitchen"` over a
load containing only the record with id `"d"` yields no match, while
clicking `"d"` returns that record. -/
theorem c9_witness :
    lookupClicked [recD] "env_Kitchen" = none
    ∧ lookupClicked [recD] "d" = some recD := by
  constructor
  · exact (c9_click_lookup [recD] "env_Kitchen").1 (by decide)
  · obtain ⟨r, hr, hmem, _⟩ := (c9_click_lookup [recD] "d").2 recD (by simp) rfl
    rw [List.mem_singleton] at hmem
    subst hmem
    exact hr

lemma labels_iff_language (m : List (String × String)) (a b c : Int) :
    ((buildRecordCore m a b c).task_env.language_labels = true ↔
      "Language" ∈ (buildRecordCore m a b c).modality.sensors) := by
  rw [buildRecordCore_labels, mem_sensors_char]
  have e1 : ("Language" : String) ≠ "RGB" := by decide
  have e2 : ("Language" : String) ≠ "Depth" := by decide
  have e3 : ("Language" : String) ≠ "Proprioception" := by decide
  simp only [e1, e2, e3, and_false, false_or, and_true]
  constructor
  · intro h
    rw [Bool.not_eq_true'] at h
    have hmem : pyLower (pyStrip (dgetD m "Language Annotations" ""))
        ∉ (["", "none", "no"] : List String) := by
      intro hc
      rw [← contains_iff_mem] at hc
      rw [hc] at h
      cases h
    constructor
    · intro h0
      apply hmem
      rw [h0]
      have : pyLower "" = "" := by decide
      rw [this]
      simp
    · intro hc
      apply hmem
      rw [contains_iff_mem] at hc
      simp only [List.mem_cons, List.not_mem_nil, or_false] at hc ⊢
      tauto
  · rintro ⟨h0, hc⟩
    rw [Bool.not_eq_true']
    have hne : pyLower (pyStrip (dgetD m "Language Annotations" "")) ≠ "" := by
      intro h
      exact h0 ((pyLower_eq_empty_iff _).mp h)
    have hmem : pyLower (pyStrip (dgetD m "Language Annotations" ""))
        ∉ (["", "none", "no"] : List String) := by
      intro hm
      simp only [List.mem_cons, List.not_mem_nil, or_false] at hm
      rcases hm with hm | hm | hm
      · exact hne hm
      · exact hc (by rw [contains_iff_mem]; simp [hm])
      · exact hc (by rw [contains_iff_mem]; simp [hm])
    rw [← Bool.not_eq_true]
    intro hcontra
    exact hmem ((contains_iff_mem _ _).mp hcontra)

/-- C10: for every loaded record, `task_env.language_labels` is true
exactly when `"Language"` is among `modality.sensors`; both derive from
the same trimmed language-annotation field. -/
theorem c10_language_labels_iff (header : List String) (rows : List (List String))
    (recs : List DatasetRecord) (rec : DatasetRecord)
    (hl : load_data header rows = Except.ok recs) (hm : rec ∈ recs) :
    (rec.task_env.language_labels = true ↔ "Language" ∈ rec.modality.sensors) := by
  obtain ⟨row, _, hpr⟩ := load_data_mem hl hm
  obtain ⟨_, hbuild⟩ := processRow_ok_some hpr
  obtain ⟨_, rgb, dep, wr, _, _, _, hrec⟩ := buildRecord_ok_some hbuild
  rw [hrec]
  exact labels_iff_language _ _ _ _

/-- C10 witness: the record loaded with language annotation `"English"`
has `language_labels = true` and `"Language"` among its sensors. -/
theorem c10_witness :
    (recLang.task_env.language_labels = true ↔ "Language" ∈ recLang.modality.sensors) :=
  c10_language_labels_iff ["Dataset", "Language Annotations"] [["d", "English"]]
    [recLang] recLang (by decide) (by simp)

lemma ite_singleton_sublist {c : Prop} [Decidable c] (x : String) :
    List.Sublist (if c then [x] else []) [x] := by
  by_cases hc : c
  · rw [if_pos hc]
  · rw [if_neg hc]
    exact List.nil_sublist _

lemma dedupFirstAux_eq_self (l : List String) :
    ∀ seen, l.Nodup → (∀ x ∈ l, x ∉ seen) → dedupFirstAux l seen = l := by
  induction l with
  | nil => intro seen _ _; rfl
  | cons x xs ih =>
    intro seen hnd hdis
    rw [List.nodup_cons] at hnd
    have hx : seen.contains x = false := by
      have := hdis x (List.mem_cons_self _ _)
      simpa using this
    rw [dedupFirstAux, hx]
    simp only [Bool.false_eq_true, if_false]
    rw [ih (x :: seen) hnd.2]
    intro y hy
    rw [List.mem_cons, not_or]
    exact ⟨fun h => hnd.1 (h ▸ hy), hdis y (List.mem_cons_of_mem _ hy)⟩

lemma dedupFirst_eq_self_of_nodup (l : List String) (h : l.Nodup) :
    dedupFirst l = l :=
  dedupFirstAux_eq_self l [] h (by simp)

lemma sensors_shape (m : List (String × String)) (a b c : Int) :
    List.Sublist (buildRecordCore m a b c).modality.sensors
        ["RGB", "Depth", "Proprioception", "Language"]
    ∧ (buildRecordCore m a b c).modality.sensors.Nodup := by
  rw [buildRecordCore_sensors]
  have hs1 : List.Sublist (if a > 0 then ["RGB"] else ([] : List String)) ["RGB"] :=
    ite_singleton_sublist _
  have hs2 : List.Sublist (if b > 0 then ["Depth"] else ([] : List String)) ["Depth"] :=
    ite_singleton_sublist _
  have hs3 : List.Sublist
      (if pyLower (pyStrip (dgetD m "Has Proprioception?" "")) == "yes"
        then ["Proprioception"] else ([] : List String)) ["Proprioception"] :=
    ite_singleton_sublist _
  have hs4 : List.Sublist
      (if pyStrip (dgetD m "Language Annotations" "") ≠ "" ∧
          ¬ ((["none", "no"] : List String).contains
            (pyLower (pyStrip (dgetD m "Language Annotations" ""))))
        then ["Language"] else ([] : List String)) ["Language"] :=
    ite_singleton_sublist _
  have hsub := ((hs1.append hs2).append hs3).append hs4
  have hmaster : ((["RGB"] ++ ["Depth"] ++ ["Proprioception"] ++ ["Language"]) : List String) =
      ["RGB", "Depth", "Proprioception", "Language"] := rfl
  rw [hmaster] at hsub
  have hnd := hsub.nodup (by decide)
  rw [dedupFirst_eq_self_of_nodup _ hnd]
  exact ⟨hsub, hnd⟩

/-- C8: sensors of a loaded record are derived as: `"RGB"` iff the parsed
RGB count is positive, `"Depth"` iff the parsed depth count is positive,
`"Proprioception"` iff the proprioception flag strips and lowers to
`"yes"`, `"Language"` iff the trimmed language-annotation field is nonempty
and not (case-insensitively) `"none"`/`"no"`; the list follows the fixed
order RGB, Depth, Proprioception, Language with no duplicates. -/
theorem c8_sensor_derivation (m : List (String × String)) (rec : DatasetRecord) (rgb dep : Int)
    (hb : buildRecord m = Except.ok (some rec))
    (hr : _parse_int (dget m "# RGB Cams") = Except.ok rgb)
    (hd : _parse_int (dget m "# Depth Cams") = Except.ok dep) :
    ("RGB" ∈ rec.modality.sensors ↔ 0 < rgb)
    ∧ ("Depth" ∈ rec.modality.sensors ↔ 0 < dep)
    ∧ ("Proprioception" ∈ rec.modality.sensors ↔
        pyLower (pyStrip (dgetD m "Has Proprioception?" "")) = "yes")
    ∧ ("Language" ∈ rec.modality.sensors ↔
        (pyStrip (dgetD m "Language Annotations" "") ≠ ""
          ∧ pyLower (pyStrip (dgetD m "Language Annotations" ""))
              ∉ (["none", "no"] : List String)))
    ∧ List.Sublist rec.modality.sensors ["RGB", "Depth", "Proprioception", "Language"]
    ∧ rec.modality.sensors.Nodup := by
  obtain ⟨_, rgb', dep', wr', h1, h2, _, hrec⟩ := buildRecord_ok_some hb
  rw [h1] at hr
  rw [h2] at hd
  simp only [Except.ok.injEq] at hr hd
  subst hr
  subst hd
  subst hrec
  refine ⟨?_, ?_, ?_, ?_, ?_, ?_⟩
  · rw [mem_sensors_char]
    simp [(by decide : ("RGB" : String) ≠ "Depth"),
          (by decide : ("RGB" : String) ≠ "Proprioception"),
          (by decide : ("RGB" : String) ≠ "Language")]
  · rw [mem_sensors_char]
    simp [(by decide : ("Depth" : String) ≠ "RGB"),
          (by decide : ("Depth" : String) ≠ "Proprioception"),
          (by decide : ("Depth" : String) ≠ "Language")]
  · rw [mem_sensors_char]
    simp [(by decide : ("Proprioception" : String) ≠ "RGB"),
          (by decide : ("Proprioception" : String) ≠ "Depth"),
          (by decide : ("Proprioception" : String) ≠ "Language")]
  · rw [mem_sensors_char]
    simp [(by decide : ("Language" : String) ≠ "RGB"),
          (by decide : ("Language" : String) ≠ "Depth"),
          (by decide : ("Language" : String) ≠ "Proprioception"),
          contains_iff_mem]
  · exact (sensors_shape m rgb' dep' wr').1
  · exact (sensors_shape m rgb' dep' wr').2

/-- C8 witness: RGB count `"3"`, depth count `"0"`, proprioception
`"Yes"`, language `"English"` produce sensors
`["RGB", "Proprioception", "Language"]` in order without duplicates. -/
theorem c8_witness :
    ("RGB" ∈ recSensors.modality.sensors ↔ 0 < (3 : Int))
    ∧ ("Depth" ∈ recSensors.modality.sensors ↔ 0 < (0 : Int))
    ∧ ("Proprioception" ∈ recSensors.modality.sensors ↔
        pyLower (pyStrip (dgetD mSensors "Has Proprioception?" "")) = "yes")
    ∧ ("Language" ∈ recSensors.modality.sensors ↔
        (pyStrip (dgetD mSensors "Language Annotations" "") ≠ ""
          ∧ pyLower (pyStrip (dgetD mSensors "Language Annotations" ""))
              ∉ (["none", "no"] : List String)))
    ∧ List.Sublist recSensors.modality.sensors ["RGB", "Depth", "Proprioception", "Language"]
    ∧ recSensors.modality.sensors.Nodup :=
  c8_sensor_derivation mSensors recSensors 3 0 (by decide) (by decide) (by decide)

lemma add_node_eq (st : ProjState) (id label : String) (color : GColor) (shape : String)
    (size : Nat) (title image : Option String) :
    add_node st id label color shape size title image =
      if st.existing.contains id then st
      else { st with
        nodes := st.nodes ++
          [{ id := id, label := label,
             title := title.getD (if label == "" then id else label),
             color := color, shape := shape, size := size, image := image }],
        existing := id :: st.existing } := rfl

lemma edges_add_node (st : ProjState) (id label : String) (color : GColor) (shape : String)
    (size : Nat) (title image : Option String) :
    (add_node st id label color shape size title image).edges = st.edges := by
  rw [add_node_eq]
  by_cases hc : st.existing.contains id = true
  · rw [if_pos hc]
  · rw [if_neg hc]

lemma nodes_addEdge (st : ProjState) (e : GEdge) : (addEdge st e).nodes = st.nodes := rfl

lemma existing_addEdge (st : ProjState) (e : GEdge) : (addEdge st e).existing = st.existing := rfl

lemma edges_addEdge (st : ProjState) (e : GEdge) : (addEdge st e).edges = st.edges ++ [e] := rfl

lemma nodeIds_addEdge (st : ProjState) (e : GEdge) : nodeIds (addEdge st e) = nodeIds st := rfl

lemma countId_addEdge (st : ProjState) (e : GEdge) (x : String) :
    countId (addEdge st e) x = countId st x := rfl

lemma nodeIds_add_node {st : ProjState} {id label : String} {color : GColor} {shape : String}
    {size : Nat} {title image : Option String} :
    nodeIds (add_node st id label color shape size title image) =
      if st.existing.contains id then nodeIds st else nodeIds st ++ [id] := by
  by_cases hc : st.existing.contains id = true
  · rw [add_node_eq, if_pos hc, if_pos hc]
  · rw [add_node_eq, if_neg hc, if_neg hc]
    simp [nodeIds]

lemma stInv_add_node {st : ProjState} {id label : String} {color : GColor} {shape : String}
    {size : Nat} {title image : Option String} (h : stInv st) :
    stInv (add_node st id label color shape size title image) := by
  obtain ⟨hnd, hiff, hedge⟩ := h
  by_cases hc : st.existing.contains id = true
  · rw [add_node_eq, if_pos hc]
    exact ⟨hnd, hiff, hedge⟩
  · have hnot : id ∉ nodeIds st := by
      intro hm
      have := (hiff id).mpr hm
      rw [← contains_iff_mem] at this
      rw [this] at hc
      exact hc rfl
    have hids : nodeIds (add_node st id label color shape size title image) =
        nodeIds st ++ [id] := by
      rw [nodeIds_add_node, if_neg hc]
    have hexi : (add_node st id label color shape size title image).existing =
        id :: st.existing := by
      rw [add_node_eq, if_neg hc]
    have hedg : (add_node st id label color shape size title image).edges = st.edges :=
      edges_add_node _ _ _ _ _ _ _ _
    refine ⟨?_, ?_, ?_⟩
    · rw [hids]
      rw [List.Perm.nodup_iff (List.perm_append_singleton _ _)]
      rw [List.nodup_cons]
      exact ⟨hnot, hnd⟩
    · intro x
      rw [hexi, hids, List.mem_cons, List.mem_append, List.mem_singleton, hiff x]
      exact or_comm
    · intro e he
      rw [hedg] at he
      rw [hids]
      obtain ⟨hs, ht⟩ := hedge e he
      exact ⟨List.mem_append_left _ hs, List.mem_append_left _ ht⟩

lemma mem_nodeIds_add_node_self {st : ProjState} {id label : String} {color : GColor}
    {shape : String} {size : Nat} {title image : Option String} (h : stInv st) :
    id ∈ nodeIds (add_node st id label color shape size title image) := by
  rw [nodeIds_add_node]
  by_cases hc : st.existing.contains id = true
  · rw [if_pos hc]
    exact (h.2.1 id).mp ((contains_iff_mem _ _).mp hc)
  · rw [if_neg hc]
    exact List.mem_append_right _ (List.mem_singleton.mpr rfl)

lemma mem_nodeIds_add_node_mono {st : ProjState} {id label : String} {color : GColor}
    {shape : String} {size : Nat} {title image : Option String} {x : String}
    (hx : x ∈ nodeIds st) :
    x ∈ nodeIds (add_node st id label color shape size title image) := by
  rw [nodeIds_add_node]
  by_cases hc : st.existing.contains id = true
  · rw [if_pos hc]; exact hx
  · rw [if_neg hc]; exact List.mem_append_left _ hx

lemma stInv_addEdge {st : ProjState} {e : GEdge} (h : stInv st)
    (hs : e.source ∈ nodeIds st) (ht : e.target ∈ nodeIds st) : stInv (addEdge st e) := by
  obtain ⟨hnd, hiff, hedge⟩ := h
  refine ⟨hnd, hiff, ?_⟩
  intro e' he'
  rw [edges_addEdge] at he'
  rcases List.mem_append.mp he' with h' | h'
  · exact hedge e' h'
  · rw [List.mem_singleton] at h'
    subst h'
    exact ⟨hs, ht⟩

lemma mem_nodes_add_node {st : ProjState} {id label : String} {color : GColor}
    {shape : String} {size : Nat} {title image : Option String} {n : GNode}
    (h : n ∈ (add_node st id label color shape size title image).nodes) :
    n ∈ st.nodes ∨ (n.id = id ∧ n.label = label ∧
      n.title = title.getD (if label == "" then id else label)) := by
  by_cases hc : st.existing.contains id = true
  · rw [add_node_eq, if_pos hc] at h
    exact Or.inl h
  · rw [add_node_eq, if_neg hc] at h
    rcases List.mem_append.mp h with h' | h'
    · exact Or.inl h'
    · rw [List.mem_singleton] at h'
      subst h'
      exact Or.inr ⟨rfl, rfl, rfl⟩

lemma addRobotNode_eq (imgs : List (String × String)) (st : ProjState) (d : DatasetRecord) :
    ∃ c sh sz i, addRobotNode imgs st d =
      add_node st ("robot_" ++ d.hardware.robot) d.hardware.robot c sh sz
        (some ("Robot: " ++ d.hardware.robot)) i := by
  unfold addRobotNode
  by_cases h : lookupRobotImage imgs d.hardware.robot ≠ ""
  · rw [if_pos h]
    exact ⟨_, _, _, _, rfl⟩
  · rw [if_neg h]
    exact ⟨_, _, _, _, rfl⟩

lemma stInv_projectRecord (imgs : List (String × String)) (st : ProjState)
    (d : DatasetRecord) (h : stInv st) : stInv (projectRecord imgs st d) := by
  obtain ⟨c0, sh0, sz0, i0, hrobn⟩ := addRobotNode_eq imgs (addDatasetNode st d) d
  have h1 : stInv (addDatasetNode st d) := stInv_add_node h
  have hd1 : d.id ∈ nodeIds (addDatasetNode st d) := mem_nodeIds_add_node_self h
  have h2 : stInv (addRobotNode imgs (addDatasetNode st d) d) := by
    rw [hrobn]; exact stInv_add_node h1
  have hr2 : ("robot_" ++ d.hardware.robot) ∈ nodeIds (addRobotNode imgs (addDatasetNode st d) d) := by
    rw [hrobn]; exact mem_nodeIds_add_node_self h1
  have hd2 : d.id ∈ nodeIds (addRobotNode imgs (addDatasetNode st d) d) := by
    rw [hrobn]; exact mem_nodeIds_add_node_mono hd1
  have h3 : stInv (addEdge (addRobotNode imgs (addDatasetNode st d) d) (robotEdge d)) :=
    stInv_addEdge h2 hr2 hd2
  have hd3 : d.id ∈ nodeIds (addEdge (addRobotNode imgs (addDatasetNode st d) d) (robotEdge d)) := hd2
  have h4 : stInv (addSceneNode (addEdge (addRobotNode imgs (addDatasetNode st d) d)
      (robotEdge d)) d) := stInv_add_node h3
  have hs4 : ("scene_" ++ d.task_env.environment) ∈
      nodeIds (addSceneNode (addEdge (addRobotNode imgs (addDatasetNode st d) d)
        (robotEdge d)) d) := mem_nodeIds_add_node_self h3
  have hd4 : d.id ∈ nodeIds (addSceneNode (addEdge (addRobotNode imgs (addDatasetNode st d) d)
      (robotEdge d)) d) := mem_nodeIds_add_node_mono hd3
  have h5 : stInv (addEdge (addSceneNode (addEdge (addRobotNode imgs (addDatasetNode st d) d)
      (robotEdge d)) d) (sceneEdge d)) := stInv_addEdge h4 hd4 hs4
  have hd5 : d.id ∈ nodeIds (addEdge (addSceneNode (addEdge
      (addRobotNode imgs (addDatasetNode st d) d) (robotEdge d)) d) (sceneEdge d)) := hd4
  have h6 : stInv (addActionNode (addEdge (addSceneNode (addEdge
      (addRobotNode imgs (addDatasetNode st d) d) (robotEdge d)) d) (sceneEdge d)) d) :=
    stInv_add_node h5
  have ha6 : ("action_" ++ d.engineering.format) ∈
      nodeIds (addActionNode (addEdge (addSceneNode (addEdge
        (addRobotNode imgs (addDatasetNode st d) d) (robotEdge d)) d) (sceneEdge d)) d) :=
    mem_nodeIds_add_node_self h5
  have hd6 : d.id ∈ nodeIds (addActionNode (addEdge (addSceneNode (addEdge
      (addRobotNode imgs (addDatasetNode st d) d) (robotEdge d)) d) (sceneEdge d)) d) :=
    mem_nodeIds_add_node_mono hd5
  exact stInv_addEdge h6 hd6 ha6

lemma countP_le_one_of_nodup :
    ∀ (l : List GNode), (l.map GNode.id).Nodup →
      ∀ x, l.countP (fun n => n.id == x) ≤ 1 := by
  intro l
  induction l with
  | nil => intro _ x; simp
  | cons n t ih =>
    intro hnd x
    rw [List.map_cons, List.nodup_cons] at hnd
    rw [List.countP_cons]
    by_cases hx : n.id = x
    · have ht0 : t.countP (fun n' => n'.id == x) = 0 := by
        rw [List.countP_eq_zero]
        intro m hm hpm
        have hmx : m.id = x := by simpa using hpm
        exact hnd.1 (List.mem_map.mpr ⟨m, hm, hmx.trans hx.symm⟩)
      rw [ht0]
      simp [hx]
    · have hfx : (n.id == x) = false := beq_eq_false_iff_ne.mpr hx
      rw [hfx]
      simpa using ih hnd.2 x

lemma mem_nodeIds_iff_countId_pos (st : ProjState) (x : String) :
    x ∈ nodeIds st ↔ 0 < countId st x := by
  show x ∈ st.nodes.map GNode.id ↔ 0 < st.nodes.countP (fun n => n.id == x)
  rw [List.countP_pos_iff, List.mem_map]
  constructor
  · rintro ⟨n, hn, rfl⟩
    exact ⟨n, hn, by simp⟩
  · rintro ⟨n, hn, hp⟩
    exact ⟨n, hn, by simpa using hp⟩

lemma countId_add_node_ne {st : ProjState} {id label : String} {color : GColor}
    {shape : String} {size : Nat} {title image : Option String} {x : String}
    (hne : id ≠ x) :
    countId (add_node st id label color shape size title image) x = countId st x := by
  by_cases hc : st.existing.contains id = true
  · rw [add_node_eq, if_pos hc]
  · rw [add_node_eq, if_neg hc]
    show (st.nodes ++ _).countP _ = _
    rw [List.countP_append]
    simp [hne]
    rfl

lemma countId_add_node_self {st : ProjState} {x label : String} {color : GColor}
    {shape : String} {size : Nat} {title image : Option String} (h : stInv st) :
    countId (add_node st x label color shape size title image) x = 1 := by
  by_cases hc : st.existing.contains x = true
  · rw [add_node_eq, if_pos hc]
    have hmem : x ∈ nodeIds st := (h.2.1 x).mp ((contains_iff_mem _ _).mp hc)
    have h1 : 0 < st.nodes.countP (fun n => n.id == x) :=
      (mem_nodeIds_iff_countId_pos st x).mp hmem
    have h2 := countP_le_one_of_nodup st.nodes h.1 x
    show st.nodes.countP _ = 1
    omega
  · have hnot : x ∉ nodeIds st := by
      intro hm
      have := (h.2.1 x).mpr hm
      rw [← contains_iff_mem] at this
      exact hc this
    have h0 : st.nodes.countP (fun n => n.id == x) = 0 := by
      by_contra hp
      exact hnot ((mem_nodeIds_iff_countId_pos st x).mpr (Nat.pos_of_ne_zero hp))
    rw [add_node_eq, if_neg hc]
    show (st.nodes ++ _).countP _ = 1
    rw [List.countP_append, h0]
    simp

lemma scene_id_ne_robotUR5 (s : String) : ("scene_" ++ s) ≠ "robot_UR5" := by
  intro h
  have hd := congrArg String.data h
  rw [String.data_append] at hd
  have h1 : ("scene_" : String).data = 's' :: "cene_".data := rfl
  have h2 : ("robot_UR5" : String).data = 'r' :: "obot_UR5".data := rfl
  rw [h1, h2, List.cons_append] at hd
  injection hd with hc _
  exact absurd hc (by decide)

lemma action_id_ne_robotUR5 (s : String) : ("action_" ++ s) ≠ "robot_UR5" := by
  intro h
  have hd := congrArg String.data h
  rw [String.data_append] at hd
  have h1 : ("action_" : String).data = 'a' :: "ction_".data := rfl
  have h2 : ("robot_UR5" : String).data = 'r' :: "obot_UR5".data := rfl
  rw [h1, h2, List.cons_append] at hd
  injection hd with hc _
  exact absurd hc (by decide)

lemma countId_projectRecord_robot (imgs : List (String × String)) (st : ProjState)
    (d : DatasetRecord) (h : stInv st) (hrob : d.hardware.robot = "UR5") :
    countId (projectRecord imgs st d) "robot_UR5" = 1 := by
  obtain ⟨c0, sh0, sz0, i0, hrobn⟩ := addRobotNode_eq imgs (addDatasetNode st d) d
  have h1 : stInv (addDatasetNode st d) := stInv_add_node h
  show countId (addEdge (addActionNode (addEdge (addSceneNode (addEdge
    (addRobotNode imgs (addDatasetNode st d) d) (robotEdge d)) d) (sceneEdge d)) d)
    (actionEdge d)) "robot_UR5" = 1
  rw [countId_addEdge]
  show countId (add_node _ ("action_" ++ d.engineering.format) _ _ _ _ _ _) _ = 1
  rw [countId_add_node_ne (action_id_ne_robotUR5 _)]
  rw [countId_addEdge]
  show countId (add_node _ ("scene_" ++ d.task_env.environment) _ _ _ _ _ _) _ = 1
  rw [countId_add_node_ne (scene_id_ne_robotUR5 _)]
  rw [countId_addEdge]
  rw [hrobn]
  have hrid : ("robot_" ++ d.hardware.robot) = "robot_UR5" := by
    rw [hrob]
    decide
  rw [hrid]
  exact countId_add_node_self h1

lemma labels_projectRecord (imgs : List (String × String)) (st : ProjState)
    (d : DatasetRecord) (hrob : d.hardware.robot = "UR5") (hid : d.id ≠ "robot_UR5")
    (hprev : ∀ n ∈ st.nodes, n.id = "robot_UR5" → n.label = "UR5" ∧ n.title = "Robot: UR5") :
    ∀ n ∈ (projectRecord imgs st d).nodes, n.id = "robot_UR5" →
      n.label = "UR5" ∧ n.title = "Robot: UR5" := by
  obtain ⟨c0, sh0, sz0, i0, hrobn⟩ := addRobotNode_eq imgs (addDatasetNode st d) d
  intro n hn hnid
  have hn1 : n ∈ (addActionNode (addEdge (addSceneNode (addEdge
      (addRobotNode imgs (addDatasetNode st d) d) (robotEdge d)) d) (sceneEdge d)) d).nodes := hn
  rcases mem_nodes_add_node hn1 with hn2 | ⟨hid2, _, _⟩
  · have hn2' : n ∈ (addSceneNode (addEdge (addRobotNode imgs (addDatasetNode st d) d)
        (robotEdge d)) d).nodes := hn2
    rcases mem_nodes_add_node hn2' with hn3 | ⟨hid3, _, _⟩
    · have hn3' : n ∈ (addRobotNode imgs (addDatasetNode st d) d).nodes := hn3
      rw [hrobn] at hn3'
      rcases mem_nodes_add_node hn3' with hn4 | ⟨_, hlab, htit⟩
      · have hn4' : n ∈ (addDatasetNode st d).nodes := hn4
        rcases mem_nodes_add_node hn4' with hn5 | ⟨hid5, _, _⟩
        · exact hprev n hn5 hnid
        · exact absurd (hid5.symm.trans hnid) hid
      · constructor
        · rw [hlab, hrob]
        · rw [htit]
          show ("Robot: " ++ d.hardware.robot) = "Robot: UR5"
          rw [hrob]
          decide
    · exact absurd (hid3.symm.trans hnid) (scene_id_ne_robotUR5 _)
  · exact absurd (hid2.symm.trans hnid) (action_id_ne_robotUR5 _)

lemma edges_projectRecord (imgs : List (String × String)) (st : ProjState)
    (d : DatasetRecord) :
    (projectRecord imgs st d).edges =
      st.edges ++ [robotEdge d, sceneEdge d, actionEdge d] := by
  obtain ⟨c0, sh0, sz0, i0, hrobn⟩ := addRobotNode_eq imgs (addDatasetNode st d) d
  show (addEdge (addActionNode (addEdge (addSceneNode (addEdge
    (addRobotNode imgs (addDatasetNode st d) d) (robotEdge d)) d) (sceneEdge d)) d)
    (actionEdge d)).edges = _
  rw [edges_addEdge]
  show (add_node _ ("action_" ++ d.engineering.format) _ _ _ _ _ _).edges ++ _ = _
  rw [edges_add_node]
  rw [edges_addEdge]
  show ((add_node _ ("scene_" ++ d.task_env.environment) _ _ _ _ _ _).edges ++ _) ++ _ = _
  rw [edges_add_node]
  rw [edges_addEdge, hrobn, edges_add_node]
  show (((addDatasetNode st d).edges ++ _) ++ _) ++ _ = _
  rw [show (addDatasetNode st d).edges = st.edges from edges_add_node _ _ _ _ _ _ _ _]
  simp

lemma edge_countP_projectRecord (imgs : List (String × String)) (st : ProjState)
    (d : DatasetRecord) (hrob : d.hardware.robot = "UR5") :
    ((projectRecord imgs st d).edges.countP
        (fun e => e.source == "robot_UR5" && e.color == "#FFBB28")) =
      (st.edges.countP (fun e => e.source == "robot_UR5" && e.color == "#FFBB28")) + 1 := by
  rw [edges_projectRecord, List.countP_append]
  have e1 : ((robotEdge d).source == "robot_UR5" && (robotEdge d).color == "#FFBB28") = true := by
    show (("robot_" ++ d.hardware.robot) == "robot_UR5" && "#FFBB28" == "#FFBB28") = true
    rw [hrob]
    decide
  have e2 : ((sceneEdge d).source == "robot_UR5" && (sceneEdge d).color == "#FFBB28") = false := by
    show (d.id == "robot_UR5" && "#FF8042" == "#FFBB28") = false
    rw [show (("#FF8042" : String) == "#FFBB28") = false from by decide]
    rw [Bool.and_false]
  have e3 : ((actionEdge d).source == "robot_UR5" && (actionEdge d).color == "#FFBB28") = false := by
    show (d.id == "robot_UR5" && "#8884d8" == "#FFBB28") = false
    rw [show (("#8884d8" : String) == "#FFBB28") = false from by decide]
    rw [Bool.and_false]
  rw [List.countP_cons, List.countP_cons, List.countP_cons, List.countP_nil]
  rw [e1, e2, e3]
  simp

lemma stInv_foldl (imgs : List (String × String)) :
    ∀ (ds : List DatasetRecord) (st : ProjState), stInv st →
      stInv (List.foldl (projectRecord imgs) st ds) := by
  intro ds
  induction ds with
  | nil => intro st h; exact h
  | cons d t ih =>
    intro st h
    exact ih _ (stInv_projectRecord imgs st d h)

lemma countId_foldl_UR5 (imgs : List (String × String)) :
    ∀ (ds : List DatasetRecord) (st : ProjState), stInv st →
      (∀ d ∈ ds, d.hardware.robot = "UR5") → ds ≠ [] →
      countId (List.foldl (projectRecord imgs) st ds) "robot_UR5" = 1 := by
  intro ds
  induction ds with
  | nil => intro st _ _ hne; exact absurd rfl hne
  | cons d t ih =>
    intro st h hall _
    by_cases ht : t = []
    · subst ht
      exact countId_projectRecord_robot imgs st d h (hall d (List.mem_cons_self _ _))
    · exact ih _ (stInv_projectRecord imgs st d h)
        (fun x hx => hall x (List.mem_cons_of_mem _ hx)) ht

lemma edge_countP_foldl (imgs : List (String × String)) :
    ∀ (ds : List DatasetRecord) (st : ProjState),
      (∀ d ∈ ds, d.hardware.robot = "UR5") →
      ((List.foldl (projectRecord imgs) st ds).edges.countP
          (fun e => e.source == "robot_UR5" && e.color == "#FFBB28")) =
        (st.edges.countP (fun e => e.source == "robot_UR5" && e.color == "#FFBB28")) + ds.length := by
  intro ds
  induction ds with
  | nil => intro st _; simp
  | cons d t ih =>
    intro st hall
    show ((List.foldl (projectRecord imgs) (projectRecord imgs st d) t).edges.countP _) = _
    rw [ih _ (fun x hx => hall x (List.mem_cons_of_mem _ hx))]
    rw [edge_countP_projectRecord imgs st d (hall d (List.mem_cons_self _ _))]
    simp [List.length_cons]
    omega

lemma labels_foldl (imgs : List (String × String)) :
    ∀ (ds : List DatasetRecord) (st : ProjState),
      (∀ d ∈ ds, d.hardware.robot = "UR5" ∧ d.id ≠ "robot_UR5") →
      (∀ n ∈ st.nodes, n.id = "robot_UR5" → n.label = "UR5" ∧ n.title = "Robot: UR5") →
      ∀ n ∈ (List.foldl (projectRecord imgs) st ds).nodes, n.id = "robot_UR5" →
        n.label = "UR5" ∧ n.title = "Robot: UR5" := by
  intro ds
  induction ds with
  | nil => intro st _ hprev; exact hprev
  | cons d t ih =>
    intro st hall hprev
    exact ih _ (fun x hx => hall x (List.mem_cons_of_mem _ hx))
      (labels_projectRecord imgs st d (hall d (List.mem_cons_self _ _)).1
        (hall d (List.mem_cons_self _ _)).2 hprev)

/-- C5: within one projection run, each node id is emitted at most once;
every emitted edge's endpoints are ids of emitted nodes; and for a filtered
list of records all on robot `"UR5"` (none of which uses `"robot_UR5"` as
its own dataset id), exactly one node with id `"robot_UR5"` is emitted —
a Robot node labelled `"UR5"` — and exactly N robot→dataset edges
(robot-colored, sourced at `"robot_UR5"`) are emitted, N the number of
records. -/
theorem c5_projection_dedup (imgs : List (String × String)) (ds : List DatasetRecord) :
    (∀ x : String, countId (project imgs ds) x ≤ 1)
    ∧ (∀ e ∈ (project imgs ds).edges,
        e.source ∈ nodeIds (project imgs ds) ∧ e.target ∈ nodeIds (project imgs ds))
    ∧ ((∀ d ∈ ds, d.hardware.robot = "UR5") → (∀ d ∈ ds, d.id ≠ "robot_UR5") → ds ≠ [] →
        countId (project imgs ds) "robot_UR5" = 1
        ∧ (∀ n ∈ (project imgs ds).nodes, n.id = "robot_UR5" →
            n.label = "UR5" ∧ n.title = "Robot: UR5")
        ∧ ((project imgs ds).edges.countP
            (fun e => e.source == "robot_UR5" && e.color == "#FFBB28")) = ds.length) := by
  have hinv0 : stInv ⟨[], [], []⟩ := by
    refine ⟨List.nodup_nil, ?_, ?_⟩
    · intro x
      constructor
      · intro h; cases h
      · intro h; cases h
    · intro e he; cases he
  have hinv : stInv (project imgs ds) := stInv_foldl imgs ds _ hinv0
  refine ⟨?_, hinv.2.2, ?_⟩
  · intro x
    exact countP_le_one_of_nodup (project imgs ds).nodes hinv.1 x
  · intro hall hid hne
    refine ⟨countId_foldl_UR5 imgs ds _ hinv0 hall hne, ?_, ?_⟩
    · exact labels_foldl imgs ds _ (fun d hd => ⟨hall d hd, hid d hd⟩)
        (fun n hn => absurd hn (List.not_mem_nil n))
    · have h := edge_countP_foldl imgs ds ⟨[], [], []⟩ hall
      simpa using h

/-- C5 witness: two records sharing robot `"UR5"` project to exactly one
`"robot_UR5"` node and exactly two robot-colored edges sourced at it. -/
theorem c5_witness :
    countId (project [] [recU1, recU2]) "robot_UR5" = 1
    ∧ ((project [] [recU1, recU2]).edges.countP
        (fun e => e.source == "robot_UR5" && e.color == "#FFBB28")) = 2 := by
  have h := (c5_projection_dedup [] [recU1, recU2]).2.2 (by decide) (by decide) (by simp)
  exact ⟨h.1, h.2.2⟩
